import Mathlib

/-!
Verification of the ramfs demangler core of `ifs_layeredfs`
(`src/layeredfs/ramfs_demangler.cpp`).

The C++ core keeps five global tables:

  * `cleanup_map   : unordered_map<string, file_cleanup_info_t>`
  * `open_file_map : unordered_map<AVS_FILE, string>`
  * `ram_load_map  : unordered_map<void*, string>`
  * `ramfs_map     : tsl::htrie_map<char, string>`
  * `mangling_map  : tsl::htrie_map<char, string>`

and exposes four event taps (`ramfs_demangler_on_fs_open`,
`ramfs_demangler_on_fs_read`, `ramfs_demangler_on_fs_mount`,
`ramfs_demangler_demangle_if_possible`).  We embed the tables as
association lists with unique keys (insert replaces, erase removes the
entry with the given key), OS handles as `Int` (AVS_FILE, negative means
failure) and buffer addresses as `Nat` (`0` plays the role of `NULL`),
following the spec's direction to treat handles and addresses as opaque
integer identifiers.  The two hat-trie maps are association lists whose
`longest_prefix` query returns an entry with the longest key that is a
prefix of the query string.
-/

/-- Find the value stored under key `k` (C++ `map.find`). -/
def mapFind {K V : Type} [DecidableEq K] (k : K) : List (K × V) → Option V
  | [] => none
  | kv :: rest => if kv.1 = k then some kv.2 else mapFind k rest

/-- Store `v` under key `k`, replacing an existing entry (C++ `map[k] = v`). -/
def mapInsert {K V : Type} [DecidableEq K] (k : K) (v : V) : List (K × V) → List (K × V)
  | [] => [(k, v)]
  | kv :: rest => if kv.1 = k then (k, v) :: rest else kv :: mapInsert k v rest

/-- Remove the entry stored under key `k`, if any (C++ `map.erase(k)`). -/
def mapErase {K V : Type} [DecidableEq K] (k : K) : List (K × V) → List (K × V)
  | [] => []
  | kv :: rest => if kv.1 = k then rest else kv :: mapErase k rest

/-- String prefix test, computed on the underlying character lists. -/
def strPrefixB (a b : String) : Bool :=
  List.isPrefixOf a.data b.data

/-- String suffix test, computed on the underlying character lists. -/
def strSuffixB (a b : String) : Bool :=
  List.isPrefixOf a.data.reverse b.data.reverse

/-- Drop the first `n` characters of a string. -/
def strDrop (s : String) (n : Nat) : String :=
  ⟨s.data.drop n⟩

/-- Character length of a string. -/
def strLen (s : String) : Nat :=
  s.data.length

/-- The hat-trie `longest_prefix` query: an entry whose key is the longest
key of the map that is a prefix of `q`, or `none` when no key is a prefix
of `q`. -/
def longestPrefixEntry : List (String × String) → String → Option (String × String)
  | [], _ => none
  | kv :: rest, q =>
    match longestPrefixEntry rest q with
    | none => if strPrefixB kv.1 q then some kv else none
    | some best =>
      if strPrefixB kv.1 q && strLen best.1 < strLen kv.1 then some kv else some best

/-- Modelled from the spec: `string_ends_with` lives in `utils.h`, outside
the two source files; the spec describes it as testing that the path "ends
in the archive extension". -/
def string_ends_with (s suffix : String) : Bool :=
  strSuffixB suffix s

/-- Modelled from the spec: `string_replace` lives in `utils.h`, outside the
two source files; the spec describes the demangle rewrite as "replace the
matched prefix portion of `raw_path` with the mapped original path (string
substitution of the matched prefix only, preserving any trailing suffix
beyond the mount root)". -/
def string_replace (s fromStr toStr : String) : String :=
  if strPrefixB fromStr s then toStr ++ strDrop s (strLen fromStr) else s

/-- C `strstr`: the remainder of the haystack after the first occurrence of
the needle, or `none` when the needle does not occur. -/
def substrAfter (needle : List Char) : List Char → Option (List Char)
  | [] => if needle = [] then some [] else none
  | c :: rest =>
    if List.isPrefixOf needle (c :: rest) then some ((c :: rest).drop needle.length)
    else substrAfter needle rest

/-- Value of a character as a digit (underlies `strtoull`). -/
def digitVal (c : Char) : Option Nat :=
  if '0' ≤ c ∧ c ≤ '9' then some (c.toNat - '0'.toNat)
  else if 'a' ≤ c ∧ c ≤ 'f' then some (c.toNat - 'a'.toNat + 10)
  else if 'A' ≤ c ∧ c ≤ 'F' then some (c.toNat - 'A'.toNat + 10)
  else none

/-- Accumulate digits below `base`, stopping at the first non-digit. -/
def parseDigits (base : Nat) : List Char → Nat → Nat
  | [], acc => acc
  | c :: rest, acc =>
    match digitVal c with
    | some d => if d < base then parseDigits base rest (acc * base + d) else acc
    | none => acc

/-- C `isspace` on the characters relevant to flag strings. -/
def isSpaceChar (c : Char) : Bool :=
  c = ' ' || c = '\t' || c = '\n' || c = '\x0b' || c = '\x0c' || c = '\r'

/-- C `strtoull(s, NULL, 0)`: skip whitespace, optional sign, then a
`0x`-prefixed hex, `0`-prefixed octal, or decimal number, reduced modulo
`2 ^ 64`. -/
def strtoull0 (cs : List Char) : Nat :=
  let cs1 := cs.dropWhile isSpaceChar
  let signed : Bool × List Char :=
    match cs1 with
    | '-' :: r => (true, r)
    | '+' :: r => (false, r)
    | _ => (false, cs1)
  let v :=
    match signed.2 with
    | '0' :: x :: r =>
      if x = 'x' || x = 'X' then parseDigits 16 r 0 else parseDigits 8 (x :: r) 0
    | other => parseDigits 10 other 0
  let v := v % 2 ^ 64
  if signed.1 then (2 ^ 64 - v) % 2 ^ 64 else v

/-- The `base=<address>` extraction performed by the ramfs branch of
`ramfs_demangler_on_fs_mount`: `strstr(flags, "base=")` followed by
`strtoull(baseptr + 5, NULL, 0)`. -/
def parse_base (flags : String) : Option Nat :=
  match substrAfter "base=".data flags.data with
  | none => none
  | some rest => some (strtoull0 rest)

/-- C++ `file_cleanup_info_t`: the per-path cleanup record.  `buffer = 0`
plays the role of the `NULL` initial value. -/
structure FileCleanupInfo where
  handle : Int
  buffer : Nat
  ramfs_path : Option String
  mounted_path : Option String
deriving DecidableEq, Repr

/-- The five global tables of `ramfs_demangler.cpp`. -/
structure DemanglerState where
  cleanup_map : List (String × FileCleanupInfo)
  open_file_map : List (Int × String)
  ram_load_map : List (Nat × String)
  ramfs_map : List (String × String)
  mangling_map : List (String × String)
deriving DecidableEq, Repr

/-- The initial state: all five tables empty. -/
def emptyState : DemanglerState := ⟨[], [], [], [], []⟩

/-- `ramfs_demangler_on_fs_open(norm_path, open_result)`: ignore failed
opens and non-`.ifs` paths; otherwise retract any existing cleanup record
for the path (erasing its handle, non-NULL buffer, ramfs path and mounted
path from the respective maps), then store a fresh record and the
`handle -> path` mapping. -/
def ramfs_demangler_on_fs_open (s : DemanglerState) (norm_path : String)
    (open_result : Int) : DemanglerState :=
  if open_result < 0 || !(string_ends_with norm_path ".ifs") then s
  else
    let s1 :=
      match mapFind norm_path s.cleanup_map with
      | some cleanup =>
        { s with
          open_file_map := mapErase cleanup.handle s.open_file_map
          ram_load_map :=
            if cleanup.buffer ≠ 0 then mapErase cleanup.buffer s.ram_load_map
            else s.ram_load_map
          ramfs_map :=
            match cleanup.ramfs_path with
            | some rp => mapErase rp s.ramfs_map
            | none => s.ramfs_map
          mangling_map :=
            match cleanup.mounted_path with
            | some mp => mapErase mp s.mangling_map
            | none => s.mangling_map
          cleanup_map := mapErase norm_path s.cleanup_map }
      | none => s
    { s1 with
      cleanup_map := mapInsert norm_path ⟨open_result, 0, none, none⟩ s1.cleanup_map
      open_file_map := mapInsert open_result norm_path s1.open_file_map }

/-- `ramfs_demangler_on_fs_read(context, dest)`: if the handle is tracked,
record `dest -> path` and set the cleanup record's buffer field. -/
def ramfs_demangler_on_fs_read (s : DemanglerState) (context : Int) (dest : Nat) :
    DemanglerState :=
  match mapFind context s.open_file_map with
  | none => s
  | some path =>
    let s1 := { s with ram_load_map := mapInsert dest path s.ram_load_map }
    match mapFind path s1.cleanup_map with
    | none => s1
    | some cu =>
      { s1 with cleanup_map := mapInsert path { cu with buffer := dest } s1.cleanup_map }

/-- `ramfs_demangler_on_fs_mount(mountpoint, fsroot, fstype, flags)`: the
ramfs branch parses `base=` out of `flags`, maps the buffer back to its
original path and records `mountpoint/fsroot -> path`; the imagefs branch
resolves `fsroot` through the ramfs trie by longest prefix, falling back to
a direct `mountpoint -> fsroot` entry when `fsroot` ends in `.ifs`. -/
def ramfs_demangler_on_fs_mount (s : DemanglerState) (mountpoint fsroot fstype : String)
    (flags : Option String) : DemanglerState :=
  if fstype = "ramfs" then
    match flags with
    | none => s
    | some fl =>
      match parse_base fl with
      | none => s
      | some buffer =>
        match mapFind buffer s.ram_load_map with
        | none => s
        | some orig_path =>
          let mount_path := mountpoint ++ "/" ++ fsroot
          let s1 := { s with ramfs_map := mapInsert mount_path orig_path s.ramfs_map }
          match mapFind orig_path s1.cleanup_map with
          | none => s1
          | some cu =>
            { s1 with
              cleanup_map :=
                mapInsert orig_path { cu with ramfs_path := some mount_path } s1.cleanup_map }
  else if fstype = "imagefs" then
    match longestPrefixEntry s.ramfs_map fsroot with
    | some found =>
      let orig_path := found.2
      let s1 := { s with mangling_map := mapInsert mountpoint orig_path s.mangling_map }
      match mapFind orig_path s1.cleanup_map with
      | none => s1
      | some cu =>
        { s1 with
          cleanup_map :=
            mapInsert orig_path { cu with mounted_path := some mountpoint } s1.cleanup_map }
    | none =>
      if string_ends_with fsroot ".ifs" then
        { s with mangling_map := mapInsert mountpoint fsroot s.mangling_map }
      else s
  else s

/-- `ramfs_demangler_demangle_if_possible(raw_path)`: longest-prefix lookup
in the mangling trie; on a hit, the matched prefix is replaced by the
stored original path, otherwise the path is returned unchanged. -/
def ramfs_demangler_demangle_if_possible (s : DemanglerState) (raw_path : String) : String :=
  match longestPrefixEntry s.mangling_map raw_path with
  | some found => string_replace raw_path found.1 found.2
  | none => raw_path

/-- The state right after a successful `on_fs_open` of `p` with handle `h`
when every table entry of `p`'s previous lifecycle (if any) has just been
retracted: one fresh cleanup record and one open-map entry, nothing else. -/
def FreshState (p : String) (h : Int) : DemanglerState :=
  ⟨[(p, ⟨h, 0, none, none⟩)], [(h, p)], [], [], []⟩

/-- The state of a single path `p` that has completed the full
open/read/ramfs/imagefs event chain: the cleanup record points at exactly
the one entry `p` owns in each of the four forward maps. -/
def ShapeState (p : String) (h : Int) (b : Nat) (rp mp : String) : DemanglerState :=
  ⟨[(p, ⟨h, b, some rp, some mp⟩)], [(h, p)], [(b, p)], [(rp, p)], [(mp, p)]⟩

/-- Parameters of one full engine cycle for a fixed original path: the open
handle, the buffer address, the ramfs mountpoint/fsroot/flags, and the
imagefs mountpoint/fsroot. -/
structure CycleParams where
  h : Int
  b : Nat
  rm : String
  rr : String
  fl : String
  im : String
  ifr : String
deriving Repr

/-- Run one full engine cycle (open, read, ramfs mount, imagefs mount) for
path `p` with parameters `c`. -/
def runCycle (p : String) (s : DemanglerState) (c : CycleParams) : DemanglerState :=
  ramfs_demangler_on_fs_mount
    (ramfs_demangler_on_fs_mount
      (ramfs_demangler_on_fs_read
        (ramfs_demangler_on_fs_open s p c.h) c.h c.b)
      c.rm c.rr "ramfs" (some c.fl))
    c.im c.ifr "imagefs" none

/-- Run a list of full engine cycles for path `p`. -/
def runCycles (p : String) (s : DemanglerState) (cs : List CycleParams) : DemanglerState :=
  List.foldl (runCycle p) s cs

/-- Well-formedness of one cycle's parameters: the open succeeds, the path
is an archive, the flags carry the buffer address (a non-NULL one), and the
imagefs fsroot extends the ramfs virtual path. -/
def cycleOK (p : String) (c : CycleParams) : Prop :=
  ¬ c.h < 0 ∧ string_ends_with p ".ifs" = true ∧ parse_base c.fl = some c.b ∧
    c.b ≠ 0 ∧ strPrefixB (c.rm ++ "/" ++ c.rr) c.ifr = true

instance decCycleOK (p : String) (c : CycleParams) : Decidable (cycleOK p c) := by
  unfold cycleOK
  exact inferInstance

/-- ASCII lower-casing of one character (C `tolower` on the ASCII range). -/
def charLowerAscii (c : Char) : Char :=
  if 'A' ≤ c ∧ c ≤ 'Z' then Char.ofNat (c.toNat + 32) else c

/-- Modelled from the spec: `str_tolower_inline` lives in `utils.h`, outside
the two source files; the spec states that path comparisons are
case-insensitive because all keys are lower-cased before storage or lookup
by the filesystem-hook collaborator, which normalizes paths before calling
into this core. -/
def str_tolower (s : String) : String :=
  ⟨s.data.map charLowerAscii⟩

/-- Modelled from the spec: the external `notify_open` interface; the hook
collaborator is assumed to lower-case the path before it reaches
`ramfs_demangler_on_fs_open`. -/
def notify_open (s : DemanglerState) (path : String) (h : Int) : DemanglerState :=
  ramfs_demangler_on_fs_open s (str_tolower path) h

/-- Modelled from the spec: the external `notify_read` interface (handles
and addresses carry no case, so the hook passes them through). -/
def notify_read (s : DemanglerState) (h : Int) (dest : Nat) : DemanglerState :=
  ramfs_demangler_on_fs_read s h dest

/-- Modelled from the spec: the external `notify_mount` interface; the hook
collaborator lower-cases the mountpoint and fsroot paths before they reach
`ramfs_demangler_on_fs_mount`. -/
def notify_mount (s : DemanglerState) (mountpoint fsroot fstype : String)
    (flags : Option String) : DemanglerState :=
  ramfs_demangler_on_fs_mount s (str_tolower mountpoint) (str_tolower fsroot) fstype flags

/-- Modelled from the spec: the external `demangle` query; the consumer's
path is normalized (lower-cased) before the longest-prefix lookup. -/
def demangle_query (s : DemanglerState) (path : String) : String :=
  ramfs_demangler_demangle_if_possible s (str_tolower path)

/-- Parameters of one engine cycle for a fixed original path in which each
post-open event is optional ("at most the standard chain"): the open
handle, an optional read destination, an optional ramfs mount
(mountpoint, fsroot, flags) and an optional imagefs mount
(mountpoint, fsroot). -/
structure CycleOpt where
  h : Int
  rd : Option Nat
  rm : Option (String × String × String)
  im : Option (String × String)
deriving Repr, DecidableEq

/-- Apply the optional read of a cycle. -/
def applyRd (h : Int) (rd : Option Nat) (s : DemanglerState) : DemanglerState :=
  match rd with
  | none => s
  | some b => ramfs_demangler_on_fs_read s h b

/-- Apply the optional ramfs mount of a cycle. -/
def applyRm (rm : Option (String × String × String)) (s : DemanglerState) : DemanglerState :=
  match rm with
  | none => s
  | some mr => ramfs_demangler_on_fs_mount s mr.1 mr.2.1 "ramfs" (some mr.2.2)

/-- Apply the optional imagefs mount of a cycle. -/
def applyIm (im : Option (String × String)) (s : DemanglerState) : DemanglerState :=
  match im with
  | none => s
  | some mi => ramfs_demangler_on_fs_mount s mi.1 mi.2 "imagefs" none

/-- Run one optional-event engine cycle for path `p`: the open, then at
most one read, one ramfs mount and one imagefs mount. -/
def runCycleOpt (p : String) (s : DemanglerState) (c : CycleOpt) : DemanglerState :=
  applyIm c.im (applyRm c.rm (applyRd c.h c.rd (ramfs_demangler_on_fs_open s p c.h)))

/-- Run a list of optional-event engine cycles for path `p`. -/
def runCyclesOpt (p : String) (s : DemanglerState) (cs : List CycleOpt) : DemanglerState :=
  List.foldl (runCycleOpt p) s cs

/-- The state of a cycle just before its optional imagefs mount.  A
successful open resets `p`'s entries to the fresh one-record state, so this
depends only on the cycle's own parameters. -/
def cycleMidState (p : String) (c : CycleOpt) : DemanglerState :=
  applyRm c.rm (applyRd c.h c.rd (FreshState p c.h))

/-- Every state a single path `p` can reach between cycles: one cleanup
record whose fields describe exactly the entries `p` owns in the four
forward maps (`b = 0` meaning no tracked buffer, `none` meaning no trie
entry). -/
def trackedState (p : String) (h : Int) (b : Nat) (rp mp : Option String) : DemanglerState :=
  ⟨[(p, ⟨h, b, rp, mp⟩)],
   [(h, p)],
   (if b = 0 then [] else [(b, p)]),
   (match rp with
    | none => []
    | some r => [(r, p)]),
   (match mp with
    | none => []
    | some m => [(m, p)])⟩

/-- A present read stores a non-NULL buffer (`NULL` is the sentinel the
retraction guard skips). -/
def rdOK : Option Nat → Prop
  | none => True
  | some b => b ≠ 0

instance decRdOK : (o : Option Nat) → Decidable (rdOK o)
  | none => isTrue trivial
  | some b => inferInstanceAs (Decidable (b ≠ 0))

/-- A present imagefs mount does not take the untracked fallback branch at
the state `mid` it runs in: if its fsroot ends in `.ifs`, the ramfs trie
lookup must succeed. -/
def imOK (mid : DemanglerState) : Option (String × String) → Prop
  | none => True
  | some mi => string_ends_with mi.2 ".ifs" = true →
      longestPrefixEntry mid.ramfs_map mi.2 ≠ none

instance decImOK (mid : DemanglerState) : (o : Option (String × String)) → Decidable (imOK mid o)
  | none => isTrue trivial
  | some mi =>
    inferInstanceAs (Decidable (string_ends_with mi.2 ".ifs" = true →
      longestPrefixEntry mid.ramfs_map mi.2 ≠ none))

/-- Well-formedness of one optional cycle: the open succeeds on an archive
path, a present read stores a non-NULL buffer, and a present imagefs mount
does not take the untracked fallback branch. -/
def cycleOptOK (p : String) (c : CycleOpt) : Prop :=
  ¬ c.h < 0 ∧ string_ends_with p ".ifs" = true ∧ rdOK c.rd ∧
    imOK (cycleMidState p c) c.im

instance decCycleOptOK (p : String) (c : CycleOpt) : Decidable (cycleOptOK p c) :=
  inferInstanceAs (Decidable (¬ c.h < 0 ∧ string_ends_with p ".ifs" = true ∧ rdOK c.rd ∧
    imOK (cycleMidState p c) c.im))

theorem longestPrefixEntry_eq_none (m : List (String × String)) (q : String)
    (hnone : ∀ kv ∈ m, strPrefixB kv.1 q = false) :
    longestPrefixEntry m q = none := by
  induction m with
  | nil => rfl
  | cons kv rest ih =>
    have hk := hnone kv (by simp)
    have hr := ih (fun kv' h' => hnone kv' (by simp [h']))
    simp [longestPrefixEntry, hr, hk]

theorem mapFind_mapErase_of_ne {K V : Type} [DecidableEq K] (k k' : K) (m : List (K × V))
    (hne : k ≠ k') :
    mapFind k (mapErase k' m) = mapFind k m := by
  induction m with
  | nil => rfl
  | cons kv rest ih =>
    have h2 : ¬ (k' = k) := fun e => hne e.symm
    by_cases hk : kv.1 = k'
    · simp [mapErase, mapFind, hk, h2]
    · by_cases hkk : kv.1 = k
      · simp [mapErase, mapFind, hk, hkk, hne]
      · simp [mapErase, mapFind, hk, hkk, ih]

theorem on_fs_open_emptyState (p : String) (h : Int) (hh : ¬ h < 0)
    (he : string_ends_with p ".ifs" = true) :
    ramfs_demangler_on_fs_open emptyState p h = FreshState p h := by
  simp [ramfs_demangler_on_fs_open, emptyState, FreshState, mapFind, mapInsert, hh, he]

theorem on_fs_open_ShapeState (p : String) (h h₀ : Int) (b₀ : Nat) (rp₀ mp₀ : String)
    (hh : ¬ h < 0) (he : string_ends_with p ".ifs" = true) (hb : b₀ ≠ 0) :
    ramfs_demangler_on_fs_open (ShapeState p h₀ b₀ rp₀ mp₀) p h = FreshState p h := by
  simp [ramfs_demangler_on_fs_open, ShapeState, FreshState, mapFind, mapInsert, mapErase,
    hh, he, hb]

theorem runCycle_FreshState (p : String) (h : Int) (c : CycleParams)
    (hok : cycleOK p c) :
    runCycle p (FreshState p h) c =
      ShapeState p c.h c.b (c.rm ++ "/" ++ c.rr) c.im := by
  obtain ⟨h1, h2, h3, h4, h5⟩ := hok
  simp [runCycle, ramfs_demangler_on_fs_open, ramfs_demangler_on_fs_read,
    ramfs_demangler_on_fs_mount, FreshState, ShapeState, mapFind, mapInsert, mapErase,
    longestPrefixEntry, h1, h2, h3, h4, h5]

theorem runCycle_emptyState (p : String) (c : CycleParams) (hok : cycleOK p c) :
    runCycle p emptyState c =
      ShapeState p c.h c.b (c.rm ++ "/" ++ c.rr) c.im := by
  obtain ⟨h1, h2, h3, h4, h5⟩ := hok
  simp [runCycle, ramfs_demangler_on_fs_open, ramfs_demangler_on_fs_read,
    ramfs_demangler_on_fs_mount, emptyState, ShapeState, mapFind, mapInsert, mapErase,
    longestPrefixEntry, h1, h2, h3, h4, h5]

theorem runCycle_ShapeState (p : String) (h₀ : Int) (b₀ : Nat) (rp₀ mp₀ : String)
    (c : CycleParams) (hb : b₀ ≠ 0) (hok : cycleOK p c) :
    runCycle p (ShapeState p h₀ b₀ rp₀ mp₀) c =
      ShapeState p c.h c.b (c.rm ++ "/" ++ c.rr) c.im := by
  obtain ⟨h1, h2, h3, h4, h5⟩ := hok
  simp [runCycle, ramfs_demangler_on_fs_open, ramfs_demangler_on_fs_read,
    ramfs_demangler_on_fs_mount, ShapeState, mapFind, mapInsert, mapErase,
    longestPrefixEntry, h1, h2, h3, h4, h5, hb]

theorem runCycles_ShapeState (p : String) (cs : List CycleParams) :
    ∀ h₀ b₀ rp₀ mp₀, b₀ ≠ 0 → (∀ c ∈ cs, cycleOK p c) →
      ∃ h b rp mp, runCycles p (ShapeState p h₀ b₀ rp₀ mp₀) cs = ShapeState p h b rp mp ∧
        b ≠ 0 := by
  induction cs with
  | nil =>
    intro h₀ b₀ rp₀ mp₀ hb _
    exact ⟨h₀, b₀, rp₀, mp₀, rfl, hb⟩
  | cons c cs ih =>
    intro h₀ b₀ rp₀ mp₀ hb hall
    have hc : cycleOK p c := hall c (by simp)
    have hstep : runCycles p (ShapeState p h₀ b₀ rp₀ mp₀) (c :: cs) =
        runCycles p (ShapeState p c.h c.b (c.rm ++ "/" ++ c.rr) c.im) cs := by
      simp only [runCycles, List.foldl_cons]
      rw [runCycle_ShapeState p h₀ b₀ rp₀ mp₀ c hb hc]
    rw [hstep]
    exact ih c.h c.b _ _ hc.2.2.2.1 (fun c' hc' => hall c' (by simp [hc']))

theorem on_fs_open_trackedState (p : String) (h₀ : Int) (b₀ : Nat) (rp₀ mp₀ : Option String)
    (h : Int) (hh : ¬ h < 0) (he : string_ends_with p ".ifs" = true) :
    ramfs_demangler_on_fs_open (trackedState p h₀ b₀ rp₀ mp₀) p h = FreshState p h := by
  rcases rp₀ with _ | r <;> rcases mp₀ with _ | m <;> by_cases hb : b₀ = 0 <;>
    simp [ramfs_demangler_on_fs_open, trackedState, FreshState, mapFind, mapInsert, mapErase,
      hh, he, hb]

theorem applyRd_FreshState (p : String) (h : Int) (rd : Option Nat) (hrd : rdOK rd) :
    ∃ b, applyRd h rd (FreshState p h) = trackedState p h b none none := by
  rcases rd with _ | b
  · exact ⟨0, rfl⟩
  · have hb : b ≠ 0 := hrd
    exact ⟨b, by
      simp [applyRd, ramfs_demangler_on_fs_read, FreshState, trackedState, mapFind,
        mapInsert, hb]⟩

theorem applyRm_trackedState (p : String) (h : Int) (b : Nat)
    (rm : Option (String × String × String)) :
    ∃ rp, applyRm rm (trackedState p h b none none) = trackedState p h b rp none := by
  rcases rm with _ | ⟨m, r, fl⟩
  · exact ⟨none, rfl⟩
  · cases hp : parse_base fl with
    | none => exact ⟨none, by simp [applyRm, ramfs_demangler_on_fs_mount, hp]⟩
    | some b' =>
      by_cases hb0 : b = 0
      · exact ⟨none, by
          simp [applyRm, ramfs_demangler_on_fs_mount, hp, trackedState, mapFind, hb0]⟩
      · by_cases hbb : b = b'
        · have hb0' : ¬ b' = 0 := hbb ▸ hb0
          exact ⟨some (m ++ "/" ++ r), by
            simp [applyRm, ramfs_demangler_on_fs_mount, hp, trackedState, mapFind,
              mapInsert, hb0, hbb, hb0']⟩
        · exact ⟨none, by
            simp [applyRm, ramfs_demangler_on_fs_mount, hp, trackedState, mapFind, hb0, hbb]⟩

theorem applyIm_trackedState (p : String) (h : Int) (b : Nat) (rp : Option String)
    (im : Option (String × String)) (him : imOK (trackedState p h b rp none) im) :
    ∃ mp, applyIm im (trackedState p h b rp none) = trackedState p h b rp mp := by
  rcases im with _ | ⟨M, fr⟩
  · exact ⟨none, rfl⟩
  · have him' : string_ends_with fr ".ifs" = true →
        longestPrefixEntry (trackedState p h b rp none).ramfs_map fr ≠ none := him
    rcases rp with _ | r'
    · have hlk : longestPrefixEntry (trackedState p h b none none).ramfs_map fr = none := rfl
      cases hend : string_ends_with fr ".ifs" with
      | true => exact absurd hlk (him' hend)
      | false =>
        exact ⟨none, by
          simp [applyIm, ramfs_demangler_on_fs_mount, trackedState, longestPrefixEntry, hend]⟩
    · by_cases hpre : strPrefixB r' fr = true
      · exact ⟨some M, by
          simp [applyIm, ramfs_demangler_on_fs_mount, trackedState, longestPrefixEntry,
            mapFind, mapInsert, hpre]⟩
      · have hpre' : strPrefixB r' fr = false := by
          cases hx : strPrefixB r' fr with
          | true => exact absurd hx hpre
          | false => rfl
        have hlk : longestPrefixEntry (trackedState p h b (some r') none).ramfs_map fr =
            none := by
          simp [trackedState, longestPrefixEntry, hpre']
        cases hend : string_ends_with fr ".ifs" with
        | true => exact absurd hlk (him' hend)
        | false =>
          exact ⟨none, by
            simp [applyIm, ramfs_demangler_on_fs_mount, trackedState, longestPrefixEntry,
              hpre', hend]⟩

theorem runCycleOpt_of_open (p : String) (c : CycleOpt) (s : DemanglerState)
    (hopen : ramfs_demangler_on_fs_open s p c.h = FreshState p c.h)
    (hok : cycleOptOK p c) :
    ∃ h b rp mp, runCycleOpt p s c = trackedState p h b rp mp := by
  obtain ⟨hh, hend, hrd, him⟩ := hok
  obtain ⟨b, hrdeq⟩ := applyRd_FreshState p c.h c.rd hrd
  obtain ⟨rp, hrmeq⟩ := applyRm_trackedState p c.h b c.rm
  have hmid : cycleMidState p c = trackedState p c.h b rp none := by
    unfold cycleMidState
    rw [hrdeq, hrmeq]
  have him' : imOK (trackedState p c.h b rp none) c.im := by
    rw [← hmid]
    exact him
  obtain ⟨mp, himeq⟩ := applyIm_trackedState p c.h b rp c.im him'
  refine ⟨c.h, b, rp, mp, ?_⟩
  unfold runCycleOpt
  rw [hopen, hrdeq, hrmeq, himeq]

theorem runCyclesOpt_trackedState (p : String) (cs : List CycleOpt) :
    ∀ h₀ b₀ rp₀ mp₀, (∀ c ∈ cs, cycleOptOK p c) →
      ∃ h b rp mp,
        runCyclesOpt p (trackedState p h₀ b₀ rp₀ mp₀) cs = trackedState p h b rp mp := by
  induction cs with
  | nil =>
    intro h₀ b₀ rp₀ mp₀ _
    exact ⟨h₀, b₀, rp₀, mp₀, rfl⟩
  | cons c cs ih =>
    intro h₀ b₀ rp₀ mp₀ hall
    have hc : cycleOptOK p c := hall c (by simp)
    have hopen : ramfs_demangler_on_fs_open (trackedState p h₀ b₀ rp₀ mp₀) p c.h =
        FreshState p c.h :=
      on_fs_open_trackedState p h₀ b₀ rp₀ mp₀ c.h hc.1 hc.2.1
    obtain ⟨h, b, rp, mp, hceq⟩ := runCycleOpt_of_open p c _ hopen hc
    have hstep : runCyclesOpt p (trackedState p h₀ b₀ rp₀ mp₀) (c :: cs) =
        runCyclesOpt p (trackedState p h b rp mp) cs := by
      simp only [runCyclesOpt, List.foldl_cons]
      rw [hceq]
    rw [hstep]
    exact ih h b rp mp (fun c' h' => hall c' (by simp [h']))

/-- Claim C1: starting from the empty state, after opening
`/data/sound/abc.ifs` with a non-failing handle, reading it into buffer
`0x1000`, mounting ramfs `mnt1`/`root1` with `base=0x1000`, and mounting
imagefs `mnt2` over `mnt1/root1`, demangling `mnt2/whatever.bin` rewrites
it to `/data/sound/abc.ifs/whatever.bin`: the matched prefix `mnt2` is
replaced by the original path and the suffix `/whatever.bin` is kept. -/
theorem claim_C1 (h : Int) (hh : ¬ h < 0) :
    ramfs_demangler_demangle_if_possible
      (ramfs_demangler_on_fs_mount
        (ramfs_demangler_on_fs_mount
          (ramfs_demangler_on_fs_read
            (ramfs_demangler_on_fs_open emptyState "/data/sound/abc.ifs" h) h 0x1000)
          "mnt1" "root1" "ramfs" (some "base=0x1000"))
        "mnt2" "mnt1/root1" "imagefs" none)
      "mnt2/whatever.bin" = "/data/sound/abc.ifs/whatever.bin" := by
  have hc : cycleOK "/data/sound/abc.ifs"
      ⟨h, 0x1000, "mnt1", "root1", "base=0x1000", "mnt2", "mnt1/root1"⟩ :=
    ⟨hh, (by decide : string_ends_with "/data/sound/abc.ifs" ".ifs" = true),
      (by decide : parse_base "base=0x1000" = some 0x1000),
      (by decide : (0x1000 : Nat) ≠ 0),
      (by decide : strPrefixB ("mnt1" ++ "/" ++ "root1") "mnt1/root1" = true)⟩
  have heq :
      ramfs_demangler_on_fs_mount
        (ramfs_demangler_on_fs_mount
          (ramfs_demangler_on_fs_read
            (ramfs_demangler_on_fs_open emptyState "/data/sound/abc.ifs" h) h 0x1000)
          "mnt1" "root1" "ramfs" (some "base=0x1000"))
        "mnt2" "mnt1/root1" "imagefs" none =
      ShapeState "/data/sound/abc.ifs" h 0x1000 "mnt1/root1" "mnt2" :=
    runCycle_emptyState "/data/sound/abc.ifs" _ hc
  rw [heq]
  have hd : ramfs_demangler_demangle_if_possible
      (ShapeState "/data/sound/abc.ifs" h 0x1000 "mnt1/root1" "mnt2") "mnt2/whatever.bin" =
      ramfs_demangler_demangle_if_possible
        ⟨[], [], [], [], [("mnt2", "/data/sound/abc.ifs")]⟩ "mnt2/whatever.bin" := rfl
  rw [hd]
  decide

/-- Claim C1 witness: the chain at the concrete handle `3`. -/
theorem claim_C1_witness :
    ramfs_demangler_demangle_if_possible
      (ramfs_demangler_on_fs_mount
        (ramfs_demangler_on_fs_mount
          (ramfs_demangler_on_fs_read
            (ramfs_demangler_on_fs_open emptyState "/data/sound/abc.ifs" 3) 3 0x1000)
          "mnt1" "root1" "ramfs" (some "base=0x1000"))
        "mnt2" "mnt1/root1" "imagefs" none)
      "mnt2/whatever.bin" = "/data/sound/abc.ifs/whatever.bin" :=
  claim_C1 3 (by decide)

/-- Claim C2: after a path has completed the full open/read/ramfs/imagefs
chain, a second successful open of the same path retracts every table entry
the path's cleanup record points to (the resulting state is exactly the
fresh one-record state), so demangling any path that begins with the old
mounted virtual path returns it unchanged. -/
theorem claim_C2 (p : String) (c : CycleParams) (h' : Int) (suffix : String)
    (hok : cycleOK p c) (hh' : ¬ h' < 0) :
    ramfs_demangler_on_fs_open (runCycle p emptyState c) p h' = FreshState p h' ∧
    ramfs_demangler_demangle_if_possible
      (ramfs_demangler_on_fs_open (runCycle p emptyState c) p h') (c.im ++ suffix) =
      c.im ++ suffix := by
  have hopen : ramfs_demangler_on_fs_open (runCycle p emptyState c) p h' = FreshState p h' := by
    rw [runCycle_emptyState p c hok]
    exact on_fs_open_ShapeState p h' c.h c.b _ _ hh' hok.2.1 hok.2.2.2.1
  refine ⟨hopen, ?_⟩
  rw [hopen]
  rfl

/-- Claim C2 witness: the retraction at concrete parameters. -/
theorem claim_C2_witness :
    ramfs_demangler_on_fs_open
      (runCycle "/data/sound/abc.ifs" emptyState
        ⟨3, 0x1000, "mnt1", "root1", "base=0x1000", "mnt2", "mnt1/root1"⟩)
      "/data/sound/abc.ifs" 7 = FreshState "/data/sound/abc.ifs" 7 ∧
    ramfs_demangler_demangle_if_possible
      (ramfs_demangler_on_fs_open
        (runCycle "/data/sound/abc.ifs" emptyState
          ⟨3, 0x1000, "mnt1", "root1", "base=0x1000", "mnt2", "mnt1/root1"⟩)
        "/data/sound/abc.ifs" 7) ("mnt2" ++ "/x.bin") = "mnt2" ++ "/x.bin" :=
  claim_C2 "/data/sound/abc.ifs"
    ⟨3, 0x1000, "mnt1", "root1", "base=0x1000", "mnt2", "mnt1/root1"⟩ 7 "/x.bin"
    ⟨by decide, by decide, by decide, by decide, by decide⟩ (by decide)

/-- Claim C3 counterexample: with arbitrary interleaved reads the claim
fails.  Two successful opens of `/data/sound/abc.ifs` with three reads into
distinct buffers in between leave two Buffer Map entries originating from
the path (the retraction only erases the most recently recorded buffer), so
"at most one entry originating from that path in each map" is false. -/
theorem claim_C3_counterexample :
    ¬ (List.countP (fun kv => kv.2 == "/data/sound/abc.ifs")
        (ramfs_demangler_on_fs_open
          (ramfs_demangler_on_fs_read
            (ramfs_demangler_on_fs_read
              (ramfs_demangler_on_fs_read
                (ramfs_demangler_on_fs_open emptyState "/data/sound/abc.ifs" 0) 0 1)
              0 2)
            0 3)
          "/data/sound/abc.ifs" 4).ram_load_map ≤ 1) := by
  decide

/-- Claim C3 (amended): a sequence of N ≥ 1 successful opens of the same
archive path, each followed by at most the engine's standard event chain
before the next open — at most one read (into a non-NULL buffer), at most
one ramfs mount and at most one imagefs mount, with arbitrary per-cycle
handles, buffers, flags and mount paths, where no imagefs mount takes the
untracked fallback branch — leaves exactly one cleanup record for the path
and at most one entry in each of the four forward maps; all five table
sizes are bounded by one, independently of N. -/
theorem claim_C3 (p : String) (c : CycleOpt) (cs : List CycleOpt)
    (hall : ∀ c' ∈ c :: cs, cycleOptOK p c') :
    ∃ info, (runCyclesOpt p emptyState (c :: cs)).cleanup_map = [(p, info)] ∧
      (runCyclesOpt p emptyState (c :: cs)).open_file_map.length ≤ 1 ∧
      (runCyclesOpt p emptyState (c :: cs)).ram_load_map.length ≤ 1 ∧
      (runCyclesOpt p emptyState (c :: cs)).ramfs_map.length ≤ 1 ∧
      (runCyclesOpt p emptyState (c :: cs)).mangling_map.length ≤ 1 := by
  have hc : cycleOptOK p c := hall c (by simp)
  have hopen : ramfs_demangler_on_fs_open emptyState p c.h = FreshState p c.h :=
    on_fs_open_emptyState p c.h hc.1 hc.2.1
  obtain ⟨h, b, rp, mp, hceq⟩ := runCycleOpt_of_open p c emptyState hopen hc
  have hstep : runCyclesOpt p emptyState (c :: cs) =
      runCyclesOpt p (trackedState p h b rp mp) cs := by
    simp only [runCyclesOpt, List.foldl_cons]
    rw [hceq]
  obtain ⟨h2, b2, rp2, mp2, heq⟩ :=
    runCyclesOpt_trackedState p cs h b rp mp (fun c' h' => hall c' (by simp [h']))
  rw [hstep, heq]
  refine ⟨⟨h2, b2, rp2, mp2⟩, rfl, by simp [trackedState], ?_, ?_, ?_⟩
  · by_cases hb2 : b2 = 0 <;> simp [trackedState, hb2]
  · rcases rp2 with _ | r <;> simp [trackedState]
  · rcases mp2 with _ | m <;> simp [trackedState]

/-- Claim C3 witness: three cycles exercising the "at most" shape — a full
chain, then an open followed only by a read, then a bare open. -/
theorem claim_C3_witness :
    ∃ info,
      (runCyclesOpt "/data/sound/abc.ifs" emptyState
        [⟨3, some 0x1000, some ("mnt1", "root1", "base=0x1000"), some ("mnt2", "mnt1/root1")⟩,
         ⟨5, some 0x2000, none, none⟩,
         ⟨7, none, none, none⟩]).cleanup_map = [("/data/sound/abc.ifs", info)] ∧
      (runCyclesOpt "/data/sound/abc.ifs" emptyState
        [⟨3, some 0x1000, some ("mnt1", "root1", "base=0x1000"), some ("mnt2", "mnt1/root1")⟩,
         ⟨5, some 0x2000, none, none⟩,
         ⟨7, none, none, none⟩]).open_file_map.length ≤ 1 ∧
      (runCyclesOpt "/data/sound/abc.ifs" emptyState
        [⟨3, some 0x1000, some ("mnt1", "root1", "base=0x1000"), some ("mnt2", "mnt1/root1")⟩,
         ⟨5, some 0x2000, none, none⟩,
         ⟨7, none, none, none⟩]).ram_load_map.length ≤ 1 ∧
      (runCyclesOpt "/data/sound/abc.ifs" emptyState
        [⟨3, some 0x1000, some ("mnt1", "root1", "base=0x1000"), some ("mnt2", "mnt1/root1")⟩,
         ⟨5, some 0x2000, none, none⟩,
         ⟨7, none, none, none⟩]).ramfs_map.length ≤ 1 ∧
      (runCyclesOpt "/data/sound/abc.ifs" emptyState
        [⟨3, some 0x1000, some ("mnt1", "root1", "base=0x1000"), some ("mnt2", "mnt1/root1")⟩,
         ⟨5, some 0x2000, none, none⟩,
         ⟨7, none, none, none⟩]).mangling_map.length ≤ 1 :=
  claim_C3 "/data/sound/abc.ifs"
    ⟨3, some 0x1000, some ("mnt1", "root1", "base=0x1000"), some ("mnt2", "mnt1/root1")⟩
    [⟨5, some 0x2000, none, none⟩, ⟨7, none, none, none⟩] (by decide)

/-- Claim C4: all keys reaching the five tables are lower-cased before
storage and lookup (the hook collaborator normalizes paths, modelled by the
`notify` interfaces), so after opening `/Data/Sound/ABC.IFS` and running
the read/mount chain with mixed-case mount paths, a demangle query using
lower-case prefixes resolves exactly as one using the original casing, and
both yield the (normalized) original path. -/
theorem claim_C4 (h : Int) (hh : ¬ h < 0) :
    demangle_query
      (notify_mount
        (notify_mount
          (notify_read (notify_open emptyState "/Data/Sound/ABC.IFS" h) h 0x1000)
          "Mnt1" "Root1" "ramfs" (some "base=0x1000"))
        "Mnt2" "Mnt1/Root1" "imagefs" none)
      "MNT2/File.BIN" =
    demangle_query
      (notify_mount
        (notify_mount
          (notify_read (notify_open emptyState "/Data/Sound/ABC.IFS" h) h 0x1000)
          "Mnt1" "Root1" "ramfs" (some "base=0x1000"))
        "Mnt2" "Mnt1/Root1" "imagefs" none)
      "mnt2/file.bin" ∧
    demangle_query
      (notify_mount
        (notify_mount
          (notify_read (notify_open emptyState "/Data/Sound/ABC.IFS" h) h 0x1000)
          "Mnt1" "Root1" "ramfs" (some "base=0x1000"))
        "Mnt2" "Mnt1/Root1" "imagefs" none)
      "mnt2/file.bin" = "/data/sound/abc.ifs/file.bin" := by
  have e1 : str_tolower "/Data/Sound/ABC.IFS" = "/data/sound/abc.ifs" := by decide
  have e2 : str_tolower "Mnt1" = "mnt1" := by decide
  have e3 : str_tolower "Root1" = "root1" := by decide
  have e4 : str_tolower "Mnt2" = "mnt2" := by decide
  have e5 : str_tolower "Mnt1/Root1" = "mnt1/root1" := by decide
  have hc : cycleOK "/data/sound/abc.ifs"
      ⟨h, 0x1000, "mnt1", "root1", "base=0x1000", "mnt2", "mnt1/root1"⟩ :=
    ⟨hh, (by decide : string_ends_with "/data/sound/abc.ifs" ".ifs" = true),
      (by decide : parse_base "base=0x1000" = some 0x1000),
      (by decide : (0x1000 : Nat) ≠ 0),
      (by decide : strPrefixB ("mnt1" ++ "/" ++ "root1") "mnt1/root1" = true)⟩
  have hs :
      notify_mount
        (notify_mount
          (notify_read (notify_open emptyState "/Data/Sound/ABC.IFS" h) h 0x1000)
          "Mnt1" "Root1" "ramfs" (some "base=0x1000"))
        "Mnt2" "Mnt1/Root1" "imagefs" none =
      ShapeState "/data/sound/abc.ifs" h 0x1000 "mnt1/root1" "mnt2" := by
    simp only [notify_open, notify_read, notify_mount, e1, e2, e3, e4, e5]
    exact runCycle_emptyState "/data/sound/abc.ifs"
      ⟨h, 0x1000, "mnt1", "root1", "base=0x1000", "mnt2", "mnt1/root1"⟩ hc
  rw [hs]
  have hd : ∀ x : String,
      demangle_query (ShapeState "/data/sound/abc.ifs" h 0x1000 "mnt1/root1" "mnt2") x =
      demangle_query ⟨[], [], [], [], [("mnt2", "/data/sound/abc.ifs")]⟩ x :=
    fun _ => rfl
  rw [hd, hd]
  exact ⟨by decide, by decide⟩

/-- Claim C4 witness: the same chain at the concrete handle `3`. -/
theorem claim_C4_witness :
    demangle_query
      (notify_mount
        (notify_mount
          (notify_read (notify_open emptyState "/Data/Sound/ABC.IFS" 3) 3 0x1000)
          "Mnt1" "Root1" "ramfs" (some "base=0x1000"))
        "Mnt2" "Mnt1/Root1" "imagefs" none)
      "MNT2/File.BIN" =
    demangle_query
      (notify_mount
        (notify_mount
          (notify_read (notify_open emptyState "/Data/Sound/ABC.IFS" 3) 3 0x1000)
          "Mnt1" "Root1" "ramfs" (some "base=0x1000"))
        "Mnt2" "Mnt1/Root1" "imagefs" none)
      "mnt2/file.bin" ∧
    demangle_query
      (notify_mount
        (notify_mount
          (notify_read (notify_open emptyState "/Data/Sound/ABC.IFS" 3) 3 0x1000)
          "Mnt1" "Root1" "ramfs" (some "base=0x1000"))
        "Mnt2" "Mnt1/Root1" "imagefs" none)
      "mnt2/file.bin" = "/data/sound/abc.ifs/file.bin" :=
  claim_C4 3 (by decide)

/-- Claim C5: an imagefs mount whose fsroot has no Ramfs Map key as a
prefix but itself ends in `.ifs` inserts `mountpoint -> fsroot` directly
into the Mangling Map; in particular, mounting `mntX` over
`/data/sound/xyz.ifs` with no prior ramfs mapping makes
`demangle("mntX/foo")` yield `/data/sound/xyz.ifs/foo`. -/
theorem claim_C5 :
    (∀ (s : DemanglerState) (mountpoint fsroot : String) (flags : Option String),
      (∀ kv ∈ s.ramfs_map, strPrefixB kv.1 fsroot = false) →
      string_ends_with fsroot ".ifs" = true →
      (ramfs_demangler_on_fs_mount s mountpoint fsroot "imagefs" flags).mangling_map =
        mapInsert mountpoint fsroot s.mangling_map) ∧
    ramfs_demangler_demangle_if_possible
      (ramfs_demangler_on_fs_mount emptyState "mntX" "/data/sound/xyz.ifs" "imagefs" none)
      "mntX/foo" = "/data/sound/xyz.ifs/foo" := by
  refine ⟨?_, by decide⟩
  intro s mountpoint fsroot flags hnone hend
  simp [ramfs_demangler_on_fs_mount, longestPrefixEntry_eq_none s.ramfs_map fsroot hnone, hend]

/-- Claim C5 witness: the fallback insertion on a state whose ramfs trie
holds an unrelated entry. -/
theorem claim_C5_witness :
    (ramfs_demangler_on_fs_mount ⟨[], [], [], [("other/root", "/data/a.ifs")], []⟩
      "mntX" "/data/sound/xyz.ifs" "imagefs" none).mangling_map =
      mapInsert "mntX" "/data/sound/xyz.ifs" [] :=
  claim_C5.1 ⟨[], [], [], [("other/root", "/data/a.ifs")], []⟩ "mntX" "/data/sound/xyz.ifs"
    none (by decide) (by decide)

/-- Claim C6: `demangle` is total with no failure mode; whenever no
Mangling Map key is a prefix of the input, the input is returned
unchanged — absence of a mapping is not an error. -/
theorem claim_C6 (s : DemanglerState) (raw : String)
    (hnone : ∀ kv ∈ s.mangling_map, strPrefixB kv.1 raw = false) :
    ramfs_demangler_demangle_if_possible s raw = raw := by
  simp [ramfs_demangler_demangle_if_possible,
    longestPrefixEntry_eq_none s.mangling_map raw hnone]

/-- Claim C6 witness: an unmapped path passes through a non-empty mangling
map unchanged. -/
theorem claim_C6_witness :
    ramfs_demangler_demangle_if_possible ⟨[], [], [], [], [("abc", "/data/x.ifs")]⟩
      "/some/untouched/path" = "/some/untouched/path" :=
  claim_C6 ⟨[], [], [], [], [("abc", "/data/x.ifs")]⟩ "/some/untouched/path" (by decide)

/-- Claim C7: an `on_open` whose handle indicates failure or whose path
does not end in `.ifs` is a no-op on the entire state, and no error is
signaled. -/
theorem claim_C7 (s : DemanglerState) (p : String) (h : Int)
    (hbad : h < 0 ∨ string_ends_with p ".ifs" = false) :
    ramfs_demangler_on_fs_open s p h = s := by
  rcases hbad with hb | hb
  · simp [ramfs_demangler_on_fs_open, hb]
  · simp [ramfs_demangler_on_fs_open, hb]

/-- Claim C7 witness: a successful open of a non-archive path leaves a
non-empty state untouched. -/
theorem claim_C7_witness :
    ramfs_demangler_on_fs_open (FreshState "/a.ifs" 3) "/data/other.bin" 5 =
      FreshState "/a.ifs" 3 :=
  claim_C7 (FreshState "/a.ifs" 3) "/data/other.bin" 5 (Or.inr (by decide))

/-- Claim C8: a ramfs mount with missing flags, with flags lacking a
`base=` token, or with a parsed address that is not a Buffer Map key is a
no-op, and so is any mount whose fstype is neither `ramfs` nor
`imagefs`. -/
theorem claim_C8 (s : DemanglerState) (mountpoint fsroot : String) :
    ramfs_demangler_on_fs_mount s mountpoint fsroot "ramfs" none = s ∧
    (∀ fl : String, substrAfter "base=".data fl.data = none →
      ramfs_demangler_on_fs_mount s mountpoint fsroot "ramfs" (some fl) = s) ∧
    (∀ (fl : String) (b : Nat), parse_base fl = some b → mapFind b s.ram_load_map = none →
      ramfs_demangler_on_fs_mount s mountpoint fsroot "ramfs" (some fl) = s) ∧
    (∀ (fstype : String) (flags : Option String), fstype ≠ "ramfs" → fstype ≠ "imagefs" →
      ramfs_demangler_on_fs_mount s mountpoint fsroot fstype flags = s) := by
  refine ⟨by simp [ramfs_demangler_on_fs_mount], ?_, ?_, ?_⟩
  · intro fl hfl
    simp [ramfs_demangler_on_fs_mount, parse_base, hfl]
  · intro fl b hb hfind
    simp [ramfs_demangler_on_fs_mount, hb, hfind]
  · intro fstype flags h1 h2
    simp [ramfs_demangler_on_fs_mount, h1, h2]

/-- Claim C8 witness: the three ramfs no-op cases and an unknown fstype on
a concrete non-empty state. -/
theorem claim_C8_witness :
    ramfs_demangler_on_fs_mount (FreshState "/a.ifs" 3) "mnt" "root" "ramfs"
      (some "nobasehere") = FreshState "/a.ifs" 3 ∧
    ramfs_demangler_on_fs_mount (FreshState "/a.ifs" 3) "mnt" "root" "ramfs"
      (some "base=0x99") = FreshState "/a.ifs" 3 ∧
    ramfs_demangler_on_fs_mount (FreshState "/a.ifs" 3) "mnt" "root" "sramfs" none =
      FreshState "/a.ifs" 3 :=
  ⟨(claim_C8 (FreshState "/a.ifs" 3) "mnt" "root").2.1 "nobasehere" (by decide),
   (claim_C8 (FreshState "/a.ifs" 3) "mnt" "root").2.2.1 "base=0x99" 0x99 (by decide) (by decide),
   (claim_C8 (FreshState "/a.ifs" 3) "mnt" "root").2.2.2 "sramfs" none (by decide) (by decide)⟩

/-- Claim C9 counterexample: a fallback-created Mangling Map entry does
NOT always survive later successful opens.  After `/a.ifs` completes the
full chain with imagefs mountpoint `M`, a fallback imagefs mount reuses
the key `M` for `/b.ifs`; re-opening `/a.ifs` then erases `M` — the
cleanup record of `/a.ifs` still lists `M` as its mounted path — so the
fallback entry is removed. -/
theorem claim_C9_counterexample :
    mapFind "M"
      (ramfs_demangler_on_fs_mount
        (ramfs_demangler_on_fs_mount
          (ramfs_demangler_on_fs_mount
            (ramfs_demangler_on_fs_read
              (ramfs_demangler_on_fs_open emptyState "/a.ifs" 0) 0 5)
            "mnt" "r" "ramfs" (some "base=5"))
          "M" "mnt/r" "imagefs" none)
        "M" "/b.ifs" "imagefs" none).mangling_map = some "/b.ifs" ∧
    mapFind "M"
      (ramfs_demangler_on_fs_open
        (ramfs_demangler_on_fs_mount
          (ramfs_demangler_on_fs_mount
            (ramfs_demangler_on_fs_mount
              (ramfs_demangler_on_fs_read
                (ramfs_demangler_on_fs_open emptyState "/a.ifs" 0) 0 5)
              "mnt" "r" "ramfs" (some "base=5"))
            "M" "mnt/r" "imagefs" none)
          "M" "/b.ifs" "imagefs" none)
        "/a.ifs" 1).mangling_map = none := by
  decide

/-- Claim C9 (amended): the imagefs fallback branch records nothing on any
cleanup record — it changes only the Mangling Map, inserting
`mountpoint -> fsroot` and leaving the other three maps and the ledger
unchanged — and a fallback entry survives every later successful `on_open`
of a path whose cleanup record does not list the entry's mountpoint as its
mounted path; only a record that aliases the same mountpoint can erase it
on re-open. -/
theorem claim_C9 :
    (∀ (s : DemanglerState) (mountpoint fsroot : String) (flags : Option String),
      (∀ kv ∈ s.ramfs_map, strPrefixB kv.1 fsroot = false) →
      string_ends_with fsroot ".ifs" = true →
      ramfs_demangler_on_fs_mount s mountpoint fsroot "imagefs" flags =
        { s with mangling_map := mapInsert mountpoint fsroot s.mangling_map }) ∧
    (∀ (s : DemanglerState) (p : String) (h : Int) (k : String),
      (∀ cu, mapFind p s.cleanup_map = some cu → cu.mounted_path ≠ some k) →
      mapFind k (ramfs_demangler_on_fs_open s p h).mangling_map =
        mapFind k s.mangling_map) := by
  constructor
  · intro s mountpoint fsroot flags hnone hend
    simp [ramfs_demangler_on_fs_mount,
      longestPrefixEntry_eq_none s.ramfs_map fsroot hnone, hend]
  · intro s p h k hcu
    cases hg : (decide (h < 0) || !string_ends_with p ".ifs") with
    | true => simp [ramfs_demangler_on_fs_open, hg]
    | false =>
      cases hfind : mapFind p s.cleanup_map with
      | none => simp [ramfs_demangler_on_fs_open, hg, hfind]
      | some cu =>
        have hne := hcu cu hfind
        cases hmp : cu.mounted_path with
        | none => simp [ramfs_demangler_on_fs_open, hg, hfind, hmp]
        | some mp' =>
          have hkm : k ≠ mp' := fun e => hne (by rw [hmp, e])
          simp [ramfs_demangler_on_fs_open, hg, hfind, hmp,
            mapFind_mapErase_of_ne k mp' s.mangling_map hkm]

/-- Claim C9 witness: the frame equality of a concrete fallback mount, and
survival of a fallback entry across a re-open whose record names a
different mountpoint. -/
theorem claim_C9_witness :
    ramfs_demangler_on_fs_mount
      ⟨[("/a.ifs", ⟨3, 0, none, some "other"⟩)], [(3, "/a.ifs")], [],
        [("other/root", "/q.ifs")], []⟩
      "mntX" "/data/sound/xyz.ifs" "imagefs" none =
      { (⟨[("/a.ifs", ⟨3, 0, none, some "other"⟩)], [(3, "/a.ifs")], [],
          [("other/root", "/q.ifs")], []⟩ : DemanglerState) with
        mangling_map := mapInsert "mntX" "/data/sound/xyz.ifs" [] } ∧
    mapFind "M"
      (ramfs_demangler_on_fs_open
        ⟨[("/a.ifs", ⟨3, 0, none, some "other"⟩)], [(3, "/a.ifs")], [], [],
          [("M", "/b.ifs"), ("other", "/a.ifs")]⟩
        "/a.ifs" 9).mangling_map =
      mapFind "M"
        (⟨[("/a.ifs", ⟨3, 0, none, some "other"⟩)], [(3, "/a.ifs")], [], [],
          [("M", "/b.ifs"), ("other", "/a.ifs")]⟩ : DemanglerState).mangling_map :=
  ⟨claim_C9.1 ⟨[("/a.ifs", ⟨3, 0, none, some "other"⟩)], [(3, "/a.ifs")], [],
      [("other/root", "/q.ifs")], []⟩ "mntX" "/data/sound/xyz.ifs" none
      (by decide) (by decide),
   claim_C9.2 ⟨[("/a.ifs", ⟨3, 0, none, some "other"⟩)], [(3, "/a.ifs")], [], [],
      [("M", "/b.ifs"), ("other", "/a.ifs")]⟩ "/a.ifs" 9 "M"
      (fun cu hcu => by
        have h0 : mapFind "/a.ifs"
            [("/a.ifs", (⟨3, 0, none, some "other"⟩ : FileCleanupInfo))] =
            some ⟨3, 0, none, some "other"⟩ := by decide
        rw [h0] at hcu
        rw [(Option.some.inj hcu).symm]
        decide)⟩

/-- Claim C10: the retraction in `on_open` erases exactly the keys stored
in the path's cleanup record (its handle, its non-NULL buffer, its most
recently recorded ramfs path and mounted path) and nothing else; hence
when a second ramfs mount of the same path has overwritten the record's
ramfs path, re-opening removes only the most recent trie entry and the
earlier entry mapping to the same path remains. -/
theorem claim_C10 :
    (∀ (s : DemanglerState) (p : String) (h : Int) (cu : FileCleanupInfo),
      ¬ h < 0 → string_ends_with p ".ifs" = true → mapFind p s.cleanup_map = some cu →
      ramfs_demangler_on_fs_open s p h =
        ⟨mapInsert p ⟨h, 0, none, none⟩ (mapErase p s.cleanup_map),
         mapInsert h p (mapErase cu.handle s.open_file_map),
         if cu.buffer ≠ 0 then mapErase cu.buffer s.ram_load_map else s.ram_load_map,
         (match cu.ramfs_path with
          | some rp => mapErase rp s.ramfs_map
          | none => s.ramfs_map),
         (match cu.mounted_path with
          | some mp => mapErase mp s.mangling_map
          | none => s.mangling_map)⟩) ∧
    (ramfs_demangler_on_fs_open
      (ramfs_demangler_on_fs_mount
        (ramfs_demangler_on_fs_mount
          (ramfs_demangler_on_fs_read
            (ramfs_demangler_on_fs_open emptyState "/a.ifs" 0) 0 5)
          "m1" "r" "ramfs" (some "base=5"))
        "m2" "r" "ramfs" (some "base=5"))
      "/a.ifs" 1).ramfs_map = [("m1/r", "/a.ifs")] := by
  constructor
  · intro s p h cu hh he hcu
    simp [ramfs_demangler_on_fs_open, hh, he, hcu]
  · decide

/-- Claim C10 witness: the exact-retraction equation at a concrete state
that completed the full chain. -/
theorem claim_C10_witness :
    ramfs_demangler_on_fs_open (ShapeState "/a.ifs" 3 5 "m/r" "M") "/a.ifs" 9 =
      ⟨mapInsert "/a.ifs" ⟨9, 0, none, none⟩
          (mapErase "/a.ifs" (ShapeState "/a.ifs" 3 5 "m/r" "M").cleanup_map),
       mapInsert 9 "/a.ifs"
          (mapErase 3 (ShapeState "/a.ifs" 3 5 "m/r" "M").open_file_map),
       if (5 : Nat) ≠ 0 then mapErase 5 (ShapeState "/a.ifs" 3 5 "m/r" "M").ram_load_map
        else (ShapeState "/a.ifs" 3 5 "m/r" "M").ram_load_map,
       mapErase "m/r" (ShapeState "/a.ifs" 3 5 "m/r" "M").ramfs_map,
       mapErase "M" (ShapeState "/a.ifs" 3 5 "m/r" "M").mangling_map⟩ :=
  claim_C10.1 (ShapeState "/a.ifs" 3 5 "m/r" "M") "/a.ifs" 9 ⟨3, 5, some "m/r", some "M"⟩
    (by decide) (by decide) (by decide)
